import Mathlib

/-!
Verification of the JRDHOUSE coffee-shop ordering clients.

The repository has two React single-file clients sharing one Firestore
order ledger:

* `src/Customer.js` — the customer app: menu, cart, checkout
  (`placeOrder`, `getPickupTimeSlots`, `MenuItemCard`,
  `handleProceedToPayment`) and the customer "active order" reducer in
  `useFirebaseSetup` (effect 3).
* `src/unnamed/part_000` — the staff/admin app: the staff "live queue"
  reducer (`useFirebaseSetup` effect 3 + `StaffOrderBoard`), the order
  lifecycle controls (`StatusButton`, `OrderCard`) and the mutation
  `updateOrderStatus`.

The definitions below are shallow embeddings of those functions.  Orders
are embedded with the fields the verified logic reads (`id`, `userId`,
`customerName`, `status`, `paymentStatus`, `pickupTime`, `createdAt`);
fields used purely for display (`orderItems`, `paymentAmount`) are
carried only where a claim is about them (the persisted checkout
document).  Timestamps are modelled as milliseconds-since-epoch natural
numbers; a Firestore document missing `createdAt` is `none`.
-/

namespace JRDHOUSE

/-- An order document as parsed by the two snapshot listeners
(`{ id: doc.id, ...doc.data(), createdAt: ... }`). -/
structure Order where
  id : String
  userId : String
  customerName : String
  status : String
  paymentStatus : String
  pickupTime : String
  createdAt : Option Nat
deriving DecidableEq, Repr

/-- Source `src/Customer.js` line 148 and `src/unnamed/part_000` line 25
(`ACTIVE_STATUSES`): the four non-terminal statuses shown on active
views. -/
def activeStatuses : List String :=
  ["Waiting for Payment Confirmation", "Pending", "Preparing", "Ready"]

/-! ### Pickup time slots (`getPickupTimeSlots`, src/Customer.js 28-50)

The source works on a JS `Date`.  We model an instant as milliseconds
since an epoch that lies on an hour boundary, so zeroing the seconds and
milliseconds fields is truncation to the minute, and the minutes field
of `t` is `t / 60000 % 60`.  The source formats each slot with
`toLocaleTimeString`; we keep the slots as instants (the formatting is
presentation only). -/

/-- Shallow embedding of `getPickupTimeSlots`: add 10 minutes to `now`,
zero seconds/milliseconds, bump the minutes field to the next of
15/30/45, or to 0 rolling the hour forward, then emit 8 slots 15 minutes
apart. -/
def getPickupTimeSlots (now : Nat) : List Nat :=
  let t0 := (now + 10 * 60000) / 60000 * 60000
  let minutes := t0 / 60000 % 60
  let nextMinutes := if minutes < 15 then 15
    else if minutes < 30 then 30
    else if minutes < 45 then 45
    else 60
  let first := t0 + (nextMinutes - minutes) * 60000
  (List.range 8).map fun i => first + i * (15 * 60000)

set_option maxRecDepth 4000 in
/-- C7: the generated pickup choices are 8 slots, 15 minutes apart, whose
first slot is quarter-hour aligned, at least 10 minutes after `now`, and
within one quarter hour of `now + 10min` (i.e. it is the quarter-hour
boundary obtained by rounding up, rolling the hour when needed). -/
theorem getPickupTimeSlots_spec (now : Nat) :
    ∃ first, getPickupTimeSlots now = (List.range 8).map (fun i => first + i * (15 * 60000)) ∧
      first % (15 * 60000) = 0 ∧
      now + 10 * 60000 ≤ first ∧
      first ≤ now + 10 * 60000 + 15 * 60000 := by
  unfold getPickupTimeSlots
  refine ⟨_, rfl, ?_, ?_, ?_⟩ <;>
  · dsimp only
    split <;> try split
    all_goals try split
    all_goals omega

/-! ### Customer "active order" reducer (src/Customer.js 143-167)

The snapshot listener queries `where('userId', '==', userId)`, then
client-side filters for active statuses, sorts descending by
`(b.createdAt || 0) - (a.createdAt || 0)` (a missing timestamp counts as
epoch/0) and keeps `activeOrders[0] || null`.  JS `Array.prototype.sort`
is an unspecified comparison sort; we embed it as Mathlib's
`insertionSort` over the relation induced by the comparator. -/

/-- The sort key of the customer-side comparator: `createdAt || 0`. -/
def createdKey (o : Order) : Nat := o.createdAt.getD 0

/-- The ordering the comparator `(b.createdAt || 0) - (a.createdAt || 0)`
establishes: `a` may come before `b` when `a` is at least as recent. -/
def laterFirst (a b : Order) : Prop := createdKey b ≤ createdKey a

instance : DecidableRel laterFirst := fun _ _ => Nat.decLe _ _

instance : IsTotal Order laterFirst :=
  ⟨fun a b => Nat.le_total (createdKey b) (createdKey a)⟩

instance : IsTrans Order laterFirst :=
  ⟨fun _ _ _ h1 h2 => le_trans h2 h1⟩

/-- Shallow embedding of the customer active-order reducer: the body of
the `onSnapshot` callback of effect 3 in `useFirebaseSetup`
(src/Customer.js 150-165), composed with the `where('userId','==',uid)`
server-side filter of the query it subscribes to. -/
def latestActiveOrder (docs : List Order) (uid : String) : Option Order :=
  let userOrders := docs.filter fun o => o.userId == uid
  let activeOrders := userOrders.filter fun o => activeStatuses.contains o.status
  (List.insertionSort laterFirst activeOrders).head?

/-- A sorted list's head is maximal: helper for reasoning about
`sort(...)[0]`. -/
theorem head?_insertionSort_max {r : Order → Order → Prop} [DecidableRel r]
    [IsTotal Order r] [IsTrans Order r] {l : List Order} {a : Order}
    (h : (List.insertionSort r l).head? = some a) :
    a ∈ l ∧ ∀ b ∈ l, r a b := by
  have hperm := List.perm_insertionSort r l
  have hsorted := List.sorted_insertionSort r l
  rcases hl : List.insertionSort r l with _ | ⟨x, xs⟩
  · rw [hl] at h; simp at h
  · rw [hl] at h hperm hsorted
    simp only [List.head?_cons, Option.some.injEq] at h
    rw [h] at hperm hsorted
    refine ⟨hperm.mem_iff.mp (List.mem_cons_self _ _), ?_⟩
    intro b hb
    have hb' : b ∈ a :: xs := hperm.symm.mem_iff.mp hb
    rcases List.mem_cons.mp hb' with hba | hbxs
    · rw [hba]; exact (IsTotal.total a a).elim id id
    · exact (List.sorted_cons.mp hsorted).1 b hbxs

/-- The C1 example snapshot: three orders owned by `"U"`, all `Pending`,
with `createdAt` 10:00, missing, 10:05 (as ms since midnight). -/
def orderAt1000 : Order :=
  ⟨"o1", "U", "Ann", "Pending", "Waiting for Confirmation", "10:30 AM", some 36000000⟩

/-- The C1 example order whose `createdAt` is still unassigned. -/
def orderMissingTs : Order :=
  ⟨"o2", "U", "Ann", "Pending", "Waiting for Confirmation", "10:30 AM", none⟩

/-- The C1 example order created at 10:05, the latest of the three. -/
def orderAt1005 : Order :=
  ⟨"o3", "U", "Ann", "Pending", "Waiting for Confirmation", "10:45 AM", some 36300000⟩

/-- The C1 example snapshot. -/
def snapshotC1 : List Order := [orderAt1000, orderMissingTs, orderAt1005]

/-- C1: the customer reducer returns an order owned by the user with an
active status whose `createdAt` key (missing = 0) is maximal among all
such orders, and `none` exactly when no such order exists; on the
10:00/missing/10:05 snapshot it selects the 10:05 order. -/
theorem latestActiveOrder_spec (docs : List Order) (uid : String) :
    (∀ o, latestActiveOrder docs uid = some o →
        o ∈ docs ∧ o.userId = uid ∧ o.status ∈ activeStatuses ∧
        ∀ o' ∈ docs, o'.userId = uid → o'.status ∈ activeStatuses →
          createdKey o' ≤ createdKey o) ∧
    (latestActiveOrder docs uid = none ↔
        ∀ o ∈ docs, o.userId = uid → o.status ∉ activeStatuses) ∧
    (latestActiveOrder snapshotC1 "U").map Order.id = some "o3" := by
  refine ⟨?_, ?_, by decide⟩
  · intro o ho
    unfold latestActiveOrder at ho
    have hmax := head?_insertionSort_max ho
    have hmem := hmax.1
    simp only [List.mem_filter, List.contains, List.elem_eq_mem,
      decide_eq_true_iff, beq_iff_eq] at hmem
    refine ⟨hmem.1.1, hmem.1.2, hmem.2, ?_⟩
    intro o' ho' hu hs
    have : o' ∈ (docs.filter fun o => o.userId == uid).filter
        fun o => activeStatuses.contains o.status := by
      simp only [List.mem_filter, List.contains, List.elem_eq_mem,
        decide_eq_true_iff, beq_iff_eq]
      exact ⟨⟨ho', hu⟩, hs⟩
    exact hmax.2 o' this
  · unfold latestActiveOrder
    rw [List.head?_eq_none_iff]
    constructor
    · intro hnil o ho hu hs
      have hperm := List.perm_insertionSort laterFirst
        ((docs.filter fun o => o.userId == uid).filter
          fun o => activeStatuses.contains o.status)
      rw [hnil] at hperm
      have := hperm.symm.eq_nil
      simp only [List.filter_eq_nil_iff, List.mem_filter, List.contains,
        List.elem_eq_mem, decide_eq_true_iff, beq_iff_eq] at this
      exact this o ⟨ho, hu⟩ hs
    · intro hall
      have hnil : (docs.filter fun o => o.userId == uid).filter
          (fun o => activeStatuses.contains o.status) = [] := by
        simp only [List.filter_eq_nil_iff, List.mem_filter, List.contains,
          List.elem_eq_mem, decide_eq_true_iff, beq_iff_eq]
        intro o ho
        exact hall o ho.1 ho.2
      rw [hnil]
      rfl

/-- Witness for C1: instantiating the theorem on the example snapshot,
the reducer picks the 10:05 order, and the missing-timestamp order's key
is bounded by the selected one. -/
theorem latestActiveOrder_spec_witness :
    (latestActiveOrder snapshotC1 "U").map Order.id = some "o3" ∧
    createdKey orderMissingTs ≤ createdKey orderAt1005 := by
  have h := latestActiveOrder_spec snapshotC1 "U"
  refine ⟨h.2.2, ?_⟩
  exact (h.1 orderAt1005 (by decide)).2.2.2 orderMissingTs (by decide) rfl (by decide)

/-! ### Staff "live queue" reducer (src/unnamed/part_000 88-110, 302-321)

The staff snapshot listener filters for `ACTIVE_STATUSES` client-side;
`StaffOrderBoard` then sorts a copy by the `statusOrder` rank, breaking
ties by `a.pickupTime.localeCompare(b.pickupTime)` (textual comparison,
embedded as the lexicographic `String` order). -/

/-- Source `statusOrder` object (src/unnamed/part_000 305-310): the
display-priority rank of each active status. -/
def statusOrder : List (String × Nat) :=
  [("Waiting for Payment Confirmation", 0), ("Pending", 1),
   ("Preparing", 2), ("Ready", 3)]

/-- Rank lookup `statusOrder[s]`.  The default is irrelevant: the
comparator is only ever applied to orders whose status is one of the
four keys (the list was filtered on `ACTIVE_STATUSES` first). -/
def statusRank (s : String) : Nat := (statusOrder.lookup s).getD 0

/-- The ordering established by the staff comparator: strictly smaller
rank first, and within equal rank, pickup-time labels in textual
order. -/
def queueLE (a b : Order) : Prop :=
  statusRank a.status < statusRank b.status ∨
    (statusRank a.status = statusRank b.status ∧ a.pickupTime ≤ b.pickupTime)

instance : DecidableRel queueLE := fun _ _ =>
  inferInstanceAs (Decidable (_ ∨ _ ∧ _))

instance : IsTotal Order queueLE := by
  constructor
  intro a b
  rcases Nat.lt_trichotomy (statusRank a.status) (statusRank b.status) with h | h | h
  · exact Or.inl (Or.inl h)
  · rcases le_total a.pickupTime b.pickupTime with hp | hp
    · exact Or.inl (Or.inr ⟨h, hp⟩)
    · exact Or.inr (Or.inr ⟨h.symm, hp⟩)
  · exact Or.inr (Or.inl h)

instance : IsTrans Order queueLE := by
  constructor
  intro a b c hab hbc
  rcases hab with h1 | ⟨h1, hp1⟩ <;> rcases hbc with h2 | ⟨h2, hp2⟩
  · exact Or.inl (h1.trans h2)
  · exact Or.inl (h2 ▸ h1)
  · exact Or.inl (h1 ▸ h2)
  · exact Or.inr ⟨h1.trans h2, hp1.trans hp2⟩

/-- The `ACTIVE_STATUSES` filter of the staff snapshot listener
(src/unnamed/part_000 104). -/
def staffActiveOrders (docs : List Order) : List Order :=
  docs.filter fun o => activeStatuses.contains o.status

/-- The `sortedOrders` memo of `StaffOrderBoard` (src/unnamed/part_000
304-321): a sorted copy of the active orders. -/
def sortedOrders (activeOrders : List Order) : List Order :=
  List.insertionSort queueLE activeOrders

/-- The staff live queue as derived from a raw snapshot: listener filter
composed with board sort. -/
def staffQueue (docs : List Order) : List Order :=
  sortedOrders (staffActiveOrders docs)

/-- The C2 example order waiting for payment at pickup "10:30 AM". -/
def waitingAt1030 : Order :=
  ⟨"w1", "U", "Ann", "Waiting for Payment Confirmation",
   "Waiting for Confirmation", "10:30 AM", some 100⟩

/-- The C2 example order already Ready at pickup "09:00 AM". -/
def readyAt0900 : Order :=
  ⟨"r1", "V", "Bob", "Ready", "Confirmed", "09:00 AM", some 50⟩

/-- C2: the staff queue contains exactly the active-status orders of the
snapshot, in an order where rank never decreases and equal-rank runs are
in textual pickup-time order; a waiting order at "10:30 AM" precedes a
Ready order at "09:00 AM". -/
theorem staffQueue_spec (docs : List Order) :
    (staffQueue docs).Perm (docs.filter fun o => activeStatuses.contains o.status) ∧
    List.Sorted queueLE (staffQueue docs) ∧
    staffQueue [readyAt0900, waitingAt1030] = [waitingAt1030, readyAt0900] := by
  refine ⟨List.perm_insertionSort _ _, List.sorted_insertionSort _ _, by decide⟩

/-- C5: both view reducers are pure functions of the snapshot (and the
owner id): in this embedding they are Lean functions whose output is
determined by their input, so identical inputs give identical outputs;
in particular the customer reducer selects the same order id on repeated
application. -/
theorem reducers_deterministic (docs docs' : List Order) (uid : String)
    (h : docs = docs') :
    latestActiveOrder docs uid = latestActiveOrder docs' uid ∧
    (latestActiveOrder docs uid).map Order.id
      = (latestActiveOrder docs' uid).map Order.id ∧
    staffQueue docs = staffQueue docs' := by
  rw [h]
  exact ⟨rfl, rfl, rfl⟩

/-- Witness for C5: two invocations on the literal C1 snapshot agree. -/
theorem reducers_deterministic_witness :
    latestActiveOrder snapshotC1 "U" = latestActiveOrder snapshotC1 "U" ∧
    (latestActiveOrder snapshotC1 "U").map Order.id
      = (latestActiveOrder snapshotC1 "U").map Order.id ∧
    staffQueue snapshotC1 = staffQueue snapshotC1 :=
  reducers_deterministic snapshotC1 snapshotC1 "U" rfl

/-! ### Order lifecycle controller (src/unnamed/part_000 113-125,
165-201, 258-297)

`StatusButton` renders a transition button only when the current status
is at index `targetIndex - 1` of the relevant status flow (JS
`Array.prototype.indexOf`, -1 when absent); the payment-approval variant
additionally requires `paymentStatus === 'Waiting for Confirmation'` and
issues `onClick(order.id, 'Pending', 'Confirmed')`; the standard variant
issues `onClick(order.id, targetStatus)` with no payment status.
`OrderCard` wires either the single approval button (when the order is
waiting for payment) or the three standard buttons.  `updateOrderStatus`
writes `{ status }` plus `paymentStatus` only when one was passed and is
truthy. -/

/-- JS `Array.prototype.indexOf` on a list of strings: first index of
`s`, `-1` when absent. -/
def jsIndexOf (s : String) : List String → Int
  | [] => -1
  | x :: xs =>
    if s = x then 0
    else
      let r := jsIndexOf s xs
      if r = -1 then -1 else r + 1

/-- A mutation command as issued by a `StatusButton` click: the
arguments of `updateOrderStatus(orderId, newStatus, paymentStatus?)`. -/
structure Command where
  orderId : String
  newStatus : String
  newPaymentStatus : Option String
deriving DecidableEq, Repr

/-- Shallow embedding of `StatusButton` (src/unnamed/part_000 165-201):
`some c` when the button is rendered and would issue command `c` on
click, `none` when the component renders nothing. -/
def statusButtonCommand (order : Order) (currentStatus targetStatus : String)
    (requiresPaymentApproval : Bool) : Option Command :=
  let flow := if requiresPaymentApproval then
      ["Waiting for Payment Confirmation", "Pending", "Preparing", "Ready", "Completed"]
    else ["Pending", "Preparing", "Ready", "Completed"]
  let currentIndex := jsIndexOf currentStatus flow
  let targetIndex := jsIndexOf targetStatus flow
  if currentIndex ≠ targetIndex - 1 then none
  else if requiresPaymentApproval then
    if currentStatus = "Waiting for Payment Confirmation" ∧
        order.paymentStatus = "Waiting for Confirmation" then
      some ⟨order.id, "Pending", some "Confirmed"⟩
    else none
  else some ⟨order.id, targetStatus, none⟩

/-- Shallow embedding of the `OrderCard` action row (src/unnamed/part_000
258-297): the commands the card's rendered buttons can issue for a given
order. -/
def orderCardCommands (o : Order) : List Command :=
  if o.status = "Waiting for Payment Confirmation" then
    (statusButtonCommand o o.status "Pending" true).toList
  else
    (statusButtonCommand o o.status "Preparing" false).toList ++
    (statusButtonCommand o o.status "Ready" false).toList ++
    (statusButtonCommand o o.status "Completed" false).toList

/-- Shallow embedding of `updateOrderStatus` (src/unnamed/part_000
113-125) applied to the targeted order document: `status` is always
written; `paymentStatus` is written only when a truthy value was
passed. -/
def applyUpdateOrderStatus (o : Order) (c : Command) : Order :=
  { o with
    status := c.newStatus,
    paymentStatus :=
      match c.newPaymentStatus with
      | some p => if p = "" then o.paymentStatus else p
      | none => o.paymentStatus }

/-- The forward chain of the lifecycle state machine, as adjacent
pairs. -/
def chainSteps : List (String × String) :=
  [("Waiting for Payment Confirmation", "Pending"), ("Pending", "Preparing"),
   ("Preparing", "Ready"), ("Ready", "Completed")]

/-- Closed-form characterization of the commands an `OrderCard` offers,
by case analysis on the order's status. -/
theorem orderCardCommands_eq (o : Order) :
    orderCardCommands o =
      if o.status = "Waiting for Payment Confirmation" then
        (if o.paymentStatus = "Waiting for Confirmation" then
          [⟨o.id, "Pending", some "Confirmed"⟩] else [])
      else if o.status = "Pending" then [⟨o.id, "Preparing", none⟩]
      else if o.status = "Preparing" then [⟨o.id, "Ready", none⟩]
      else if o.status = "Ready" then [⟨o.id, "Completed", none⟩]
      else [] := by
  by_cases h0 : o.status = "Waiting for Payment Confirmation"
  · by_cases hp : o.paymentStatus = "Waiting for Confirmation" <;>
      simp [orderCardCommands, statusButtonCommand, jsIndexOf, h0, hp]
  · by_cases h1 : o.status = "Pending"
    · simp [orderCardCommands, statusButtonCommand, jsIndexOf, h0, h1]
    · by_cases h2 : o.status = "Preparing"
      · simp [orderCardCommands, statusButtonCommand, jsIndexOf, h0, h1, h2]
      · by_cases h3 : o.status = "Ready"
        · simp [orderCardCommands, statusButtonCommand, jsIndexOf, h0, h1, h2, h3]
        · by_cases h4 : o.status = "Completed" <;>
            simp [orderCardCommands, statusButtonCommand, jsIndexOf, h0, h1, h2, h3, h4]

/-- C3: every command an order card can issue moves the order into the
immediate successor of its current status along the forward chain; for
an order already in `Pending` no command targeting `Pending` exists (the
transition is not even constructible, so zero mutations are issued), and
both `StatusButton` variants render nothing for a `Pending`→`Pending`
request. -/
theorem lifecycle_offers_only_successor (o : Order) :
    (∀ c ∈ orderCardCommands o, (o.status, c.newStatus) ∈ chainSteps) ∧
    (o.status = "Pending" →
      ((orderCardCommands o).filter (fun c => c.newStatus == "Pending") = [] ∧
       ∀ b, statusButtonCommand o o.status "Pending" b = none)) := by
  constructor
  · intro c hc
    rw [orderCardCommands_eq] at hc
    by_cases h0 : o.status = "Waiting for Payment Confirmation"
    · rw [if_pos h0] at hc
      by_cases hp : o.paymentStatus = "Waiting for Confirmation"
      · rw [if_pos hp] at hc
        simp only [List.mem_singleton] at hc
        rw [hc, h0]; simp [chainSteps]
      · rw [if_neg hp] at hc; cases hc
    · rw [if_neg h0] at hc
      by_cases h1 : o.status = "Pending"
      · rw [if_pos h1] at hc
        simp only [List.mem_singleton] at hc
        rw [hc, h1]; simp [chainSteps]
      · rw [if_neg h1] at hc
        by_cases h2 : o.status = "Preparing"
        · rw [if_pos h2] at hc
          simp only [List.mem_singleton] at hc
          rw [hc, h2]; simp [chainSteps]
        · rw [if_neg h2] at hc
          by_cases h3 : o.status = "Ready"
          · rw [if_pos h3] at hc
            simp only [List.mem_singleton] at hc
            rw [hc, h3]; simp [chainSteps]
          · rw [if_neg h3] at hc; cases hc
  · intro hpend
    constructor
    · rw [orderCardCommands_eq, if_neg (by rw [hpend]; decide), if_pos hpend]
      simp
    · intro b
      rw [hpend]
      cases b <;> simp [statusButtonCommand, jsIndexOf]

/-- Witness for C3: a concrete `Pending` order offers exactly the
`Preparing` command, no `Pending` command, and its one offered step is an
edge of the forward chain. -/
theorem lifecycle_offers_only_successor_witness :
    ((orderCardCommands ⟨"p1", "U", "Ann", "Pending", "Confirmed", "10:30 AM", some 5⟩).filter
        (fun c => c.newStatus == "Pending") = []) ∧
    (("Pending", "Preparing") ∈ chainSteps) := by
  have h := lifecycle_offers_only_successor
    ⟨"p1", "U", "Ann", "Pending", "Confirmed", "10:30 AM", some 5⟩
  refine ⟨(h.2 rfl).1, ?_⟩
  exact h.1 ⟨"p1", "Preparing", none⟩ (by decide)

/-- C4: of all commands an order card can issue, only the payment
approval (`Waiting for Payment Confirmation` → `Pending`) carries a
`paymentStatus` write: it requires the payment to still be awaiting
confirmation and sets it to `Confirmed`; every other command leaves
`paymentStatus` untouched when applied. -/
theorem paymentStatus_frame (o : Order) :
    ∀ c ∈ orderCardCommands o,
      (c.newPaymentStatus ≠ none →
        o.status = "Waiting for Payment Confirmation" ∧ c.newStatus = "Pending" ∧
        o.paymentStatus = "Waiting for Confirmation" ∧
        c.newPaymentStatus = some "Confirmed" ∧
        (applyUpdateOrderStatus o c).paymentStatus = "Confirmed") ∧
      (o.status ≠ "Waiting for Payment Confirmation" →
        c.newPaymentStatus = none ∧
        (applyUpdateOrderStatus o c).paymentStatus = o.paymentStatus) := by
  intro c hc
  rw [orderCardCommands_eq] at hc
  by_cases h0 : o.status = "Waiting for Payment Confirmation"
  · rw [if_pos h0] at hc
    by_cases hp : o.paymentStatus = "Waiting for Confirmation"
    · rw [if_pos hp] at hc
      simp only [List.mem_singleton] at hc
      rw [hc]
      exact ⟨fun _ => ⟨h0, rfl, hp, rfl, rfl⟩, fun hne => absurd h0 hne⟩
    · rw [if_neg hp] at hc; cases hc
  · rw [if_neg h0] at hc
    have : c.newPaymentStatus = none := by
      by_cases h1 : o.status = "Pending"
      · rw [if_pos h1] at hc; simp only [List.mem_singleton] at hc; rw [hc]
      · rw [if_neg h1] at hc
        by_cases h2 : o.status = "Preparing"
        · rw [if_pos h2] at hc; simp only [List.mem_singleton] at hc; rw [hc]
        · rw [if_neg h2] at hc
          by_cases h3 : o.status = "Ready"
          · rw [if_pos h3] at hc; simp only [List.mem_singleton] at hc; rw [hc]
          · rw [if_neg h3] at hc; cases hc
    refine ⟨fun hne => absurd this hne, fun _ => ⟨this, ?_⟩⟩
    simp [applyUpdateOrderStatus, this]

/-- Witness for C4: on a concrete waiting order, the approval command
carries the `Confirmed` payment write; on a concrete `Preparing` order,
the offered `Ready` command leaves `paymentStatus` unchanged. -/
theorem paymentStatus_frame_witness :
    ((applyUpdateOrderStatus
        ⟨"w2", "U", "Ann", "Waiting for Payment Confirmation",
         "Waiting for Confirmation", "10:30 AM", some 5⟩
        ⟨"w2", "Pending", some "Confirmed"⟩).paymentStatus = "Confirmed") ∧
    ((applyUpdateOrderStatus
        ⟨"q1", "U", "Ann", "Preparing", "Confirmed", "10:30 AM", some 5⟩
        ⟨"q1", "Ready", none⟩).paymentStatus
      = (Order.paymentStatus
        ⟨"q1", "U", "Ann", "Preparing", "Confirmed", "10:30 AM", some 5⟩)) := by
  constructor
  · exact ((paymentStatus_frame
      ⟨"w2", "U", "Ann", "Waiting for Payment Confirmation",
       "Waiting for Confirmation", "10:30 AM", some 5⟩
      ⟨"w2", "Pending", some "Confirmed"⟩ (by decide)).1 (by decide)).2.2.2.2
  · exact ((paymentStatus_frame
      ⟨"q1", "U", "Ann", "Preparing", "Confirmed", "10:30 AM", some 5⟩
      ⟨"q1", "Ready", none⟩ (by decide)).2 (by decide)).2

/-! ### Cart, option selection and checkout (src/Customer.js 252-291,
173-199, 392-399)

Option selection maps (`selectedOptions`, `item.options`) are JS
objects; we embed them as association lists with at most one entry per
key, where object spread `{...prev, k: v}` updates in place or appends,
and destructuring-removal filters the key out. -/

/-- A selection map `optionKey → chosenValue`. -/
abbrev OptionMap := List (String × String)

/-- JS `{...prev, k: v}`: replace the entry for `k` if present, append
otherwise. -/
def setOpt (m : OptionMap) (k v : String) : OptionMap :=
  if (m.lookup k).isSome then
    m.map fun p => if p.1 = k then (k, v) else p
  else m ++ [(k, v)]

/-- JS `const { k, ...rest } = prev; rest`: drop the entry for `k`. -/
def removeOpt (m : OptionMap) (k : String) : OptionMap :=
  m.filter fun p => p.1 != k

/-- A catalog item (`MenuItem` documents / `initialMenuItems`). -/
structure MenuItem where
  id : String
  name : String
  price : ℚ
  category : String
  options : List (String × List String)
deriving DecidableEq, Repr

/-- `hasTemperatureOption` (src/Customer.js 263):
`item.options.temperature && item.options.temperature.includes('Iced')`. -/
def hasTemperatureOption (item : MenuItem) : Bool :=
  match item.options.lookup "temperature" with
  | some vs => vs.contains "Iced"
  | none => false

/-- `isIced` (src/Customer.js 264): the item has an `Iced` variant and it
is the resolved temperature selection. -/
def isIced (item : MenuItem) (sel : OptionMap) : Bool :=
  hasTemperatureOption item && (sel.lookup "temperature" == some "Iced")

/-- The settled state of `MenuItemCard`'s ice-separation effect
(src/Customer.js 266-277): when the drink is iced, `ice_separation`
defaults to the previous value or `'No'` (JS `||`, so an empty string
also falls back); when it is not, the key is removed. -/
def resolveIceOption (item : MenuItem) (sel : OptionMap) : OptionMap :=
  if hasTemperatureOption item then
    if isIced item sel then
      setOpt sel "ice_separation"
        (match sel.lookup "ice_separation" with
         | some v => if v = "" then "No" else v
         | none => "No")
    else removeOpt sel "ice_separation"
  else sel

/-- A cart line item as built by `handleAddToCart` (src/Customer.js
283-291); `rnd` stands in for the `Math.random()` suffix of the line
id. -/
structure CartItem where
  id : String
  name : String
  price : ℚ
  options : OptionMap
  baseId : String
deriving DecidableEq, Repr

/-- `handleAddToCart`: the line item appended to the cart, built from
the item and the settled option selection. -/
def addToCartItem (item : MenuItem) (sel : OptionMap) (rnd : String) : CartItem :=
  ⟨item.id ++ rnd, item.name, item.price, sel, item.id⟩

/-- Updating an existing key in place makes its lookup find the new
value. -/
theorem lookup_map_update (m : OptionMap) (k v : String)
    (h : (m.lookup k).isSome = true) :
    (m.map fun p => if p.1 = k then (k, v) else p).lookup k = some v := by
  induction m with
  | nil => simp at h
  | cons p rest ih =>
    obtain ⟨k1, v1⟩ := p
    by_cases hk : k1 = k
    · subst hk
      simp [List.lookup_cons]
    · have hbeq : (k == k1) = false := by
        simp only [beq_eq_false_iff_ne, ne_eq]
        exact fun hh => hk hh.symm
      rw [List.lookup_cons, hbeq] at h
      simp only [List.map_cons, if_neg hk, List.lookup_cons, hbeq]
      exact ih h

/-- Appending a fresh key makes its lookup find the appended value. -/
theorem lookup_append_new (m : OptionMap) (k v : String)
    (h : m.lookup k = none) :
    (m ++ [(k, v)]).lookup k = some v := by
  induction m with
  | nil => simp [List.lookup_cons]
  | cons p rest ih =>
    obtain ⟨k1, v1⟩ := p
    rw [List.lookup_cons] at h
    cases hbeq : (k == k1) with
    | true => rw [hbeq] at h; cases h
    | false =>
      rw [hbeq] at h
      rw [List.cons_append, List.lookup_cons, hbeq]
      exact ih h

/-- Lookup of an updated key finds the new value. -/
theorem lookup_setOpt (m : OptionMap) (k v : String) :
    (setOpt m k v).lookup k = some v := by
  unfold setOpt
  by_cases h : (m.lookup k).isSome = true
  · rw [if_pos h]
    exact lookup_map_update m k v h
  · rw [if_neg h]
    refine lookup_append_new m k v ?_
    cases hm : m.lookup k with
    | none => rfl
    | some w => rw [hm] at h; simp at h

/-- Lookup of a removed key finds nothing. -/
theorem lookup_removeOpt (m : OptionMap) (k : String) :
    (removeOpt m k).lookup k = none := by
  unfold removeOpt
  induction m with
  | nil => rfl
  | cons p rest ih =>
    obtain ⟨k1, v1⟩ := p
    by_cases hk : k1 = k
    · simpa [List.filter_cons, hk] using ih
    · have hbeq : (k == k1) = false := by
        simp only [beq_eq_false_iff_ne, ne_eq]
        exact fun hh => hk hh.symm
      have hkeep : (((k1, v1).1 != k)) = true := by
        simp only [bne_iff_ne, ne_eq]
        exact hk
      rw [List.filter_cons, if_pos hkeep, List.lookup_cons, hbeq]
      exact ih

/-- C9: on an item with an `Iced` temperature variant, whenever the
resolved temperature selection is not `Iced`, the settled option map has
no `ice_separation` entry, so a non-iced line item added to the cart
never carries one. -/
theorem ice_separation_cleared (item : MenuItem) (sel : OptionMap) (rnd : String)
    (hvar : hasTemperatureOption item = true)
    (hnot : sel.lookup "temperature" ≠ some "Iced") :
    (resolveIceOption item sel).lookup "ice_separation" = none ∧
    (addToCartItem item (resolveIceOption item sel) rnd).options.lookup
      "ice_separation" = none := by
  have hres : resolveIceOption item sel = removeOpt sel "ice_separation" := by
    unfold resolveIceOption
    rw [if_pos hvar, if_neg]
    simp [isIced, hvar, beq_iff_eq, hnot]
  rw [hres]
  exact ⟨lookup_removeOpt _ _, lookup_removeOpt _ _⟩

/-- Witness for C9: a hot latte selection with a stale ice-separation
choice loses it when the effect settles. -/
theorem ice_separation_cleared_witness :
    (resolveIceOption
        ⟨"latte", "Latte", 26/5, "Espresso Drinks", [("temperature", ["Hot", "Iced"])]⟩
        [("temperature", "Hot"), ("ice_separation", "Yes")]).lookup
      "ice_separation" = none :=
  (ice_separation_cleared
    ⟨"latte", "Latte", 26/5, "Espresso Drinks", [("temperature", ["Hot", "Iced"])]⟩
    [("temperature", "Hot"), ("ice_separation", "Yes")] "x"
    (by decide) (by decide)).1

/-- C10 (implicit): on an item with an `Iced` variant, whenever the
resolved temperature selection is `Iced`, the settled option map has an
`ice_separation` entry, and it is `'No'` when the user had not chosen
one, so every iced line item added to the cart carries a value. -/
theorem ice_separation_present (item : MenuItem) (sel : OptionMap) (rnd : String)
    (hvar : hasTemperatureOption item = true)
    (hiced : sel.lookup "temperature" = some "Iced") :
    ((resolveIceOption item sel).lookup "ice_separation").isSome = true ∧
    (sel.lookup "ice_separation" = none →
      (resolveIceOption item sel).lookup "ice_separation" = some "No") ∧
    (sel.lookup "ice_separation" = none →
      (addToCartItem item (resolveIceOption item sel) rnd).options.lookup
        "ice_separation" = some "No") := by
  have hres : resolveIceOption item sel = setOpt sel "ice_separation"
      (match sel.lookup "ice_separation" with
       | some v => if v = "" then "No" else v
       | none => "No") := by
    unfold resolveIceOption
    rw [if_pos hvar, if_pos]
    simp [isIced, hvar, hiced]
  refine ⟨?_, ?_, ?_⟩
  · rw [hres, lookup_setOpt]; rfl
  · intro hnone; rw [hres, hnone, lookup_setOpt]
  · intro hnone
    show (resolveIceOption item sel).lookup "ice_separation" = some "No"
    rw [hres, hnone, lookup_setOpt]

/-- Witness for C10: an iced latte selection without an explicit
ice-separation choice settles to `'No'`. -/
theorem ice_separation_present_witness :
    (resolveIceOption
        ⟨"latte", "Latte", 26/5, "Espresso Drinks", [("temperature", ["Hot", "Iced"])]⟩
        [("temperature", "Iced")]).lookup "ice_separation" = some "No" :=
  (ice_separation_present
    ⟨"latte", "Latte", 26/5, "Espresso Drinks", [("temperature", ["Hot", "Iced"])]⟩
    [("temperature", "Iced")] "x" (by decide) (by decide)).2.1 (by decide)

/-! ### Checkout submission (src/Customer.js 173-199, 383-418)

`placeOrder` writes one document with `setDoc`; we embed the document as
a field-name → field-value association list so claims about the
persisted field names and enum string literals are expressible. -/

/-- A persisted field value of the order document. -/
inductive FieldVal where
  | str : String → FieldVal
  | num : ℚ → FieldVal
  | items : List CartItem → FieldVal
  | serverTimestamp : FieldVal
deriving DecidableEq, Repr

/-- Shallow embedding of the document `placeOrder` persists
(src/Customer.js 183-192), field names and string literals verbatim. -/
def placeOrderDoc (userId : String) (cart : List CartItem) (pickupTime : String)
    (paymentAmount : ℚ) (customerName : String) : List (String × FieldVal) :=
  [("userId", .str userId),
   ("customerName", .str customerName),
   ("orderItems", .items cart),
   ("pickupTime", .str pickupTime),
   ("paymentStatus", .str "Waiting for Confirmation"),
   ("paymentAmount", .num paymentAmount),
   ("status", .str "Waiting for Payment Confirmation"),
   ("createdAt", .serverTimestamp)]

/-- A concrete cart line used in the C6 counterexample. -/
def sampleEspresso : CartItem :=
  ⟨"espresso0.42", "Espresso", 3, [("temperature", "Hot")], "espresso"⟩

/-- C6 counterexample: for a concrete successful submission the
persisted `paymentStatus` is the literal `'Waiting for Confirmation'`,
not the spec enum literal `'AwaitingConfirmation'`, and the owner/items
are persisted under the field names `userId`/`orderItems`, not
`ownerId`/`items` — refuting the claimed bit-exact contract. -/
theorem placeOrderDoc_contract_counterexample :
    (placeOrderDoc "user-1" [sampleEspresso] "10:30 AM" 3 "Ann").lookup "paymentStatus"
      = some (.str "Waiting for Confirmation") ∧
    (placeOrderDoc "user-1" [sampleEspresso] "10:30 AM" 3 "Ann").lookup "paymentStatus"
      ≠ some (.str "AwaitingConfirmation") ∧
    (placeOrderDoc "user-1" [sampleEspresso] "10:30 AM" 3 "Ann").lookup "ownerId"
      = none ∧
    (placeOrderDoc "user-1" [sampleEspresso] "10:30 AM" 3 "Ann").lookup "items"
      = none := by
  refine ⟨rfl, ?_, rfl, rfl⟩
  intro h
  simp [placeOrderDoc, List.lookup_cons] at h

/-- C6 as amended: every submission persists `status = 'Waiting for
Payment Confirmation'` and `paymentStatus = 'Waiting for Confirmation'`,
and carries the submitted cart (as `orderItems`), `pickupTime`,
`paymentAmount`, `customerName`, the owner id (as `userId`) and a
server-assigned `createdAt`. -/
theorem placeOrderDoc_fields (userId : String) (cart : List CartItem)
    (pickupTime : String) (paymentAmount : ℚ) (customerName : String) :
    (placeOrderDoc userId cart pickupTime paymentAmount customerName).lookup "status"
      = some (.str "Waiting for Payment Confirmation") ∧
    (placeOrderDoc userId cart pickupTime paymentAmount customerName).lookup "paymentStatus"
      = some (.str "Waiting for Confirmation") ∧
    (placeOrderDoc userId cart pickupTime paymentAmount customerName).lookup "userId"
      = some (.str userId) ∧
    (placeOrderDoc userId cart pickupTime paymentAmount customerName).lookup "customerName"
      = some (.str customerName) ∧
    (placeOrderDoc userId cart pickupTime paymentAmount customerName).lookup "orderItems"
      = some (.items cart) ∧
    (placeOrderDoc userId cart pickupTime paymentAmount customerName).lookup "pickupTime"
      = some (.str pickupTime) ∧
    (placeOrderDoc userId cart pickupTime paymentAmount customerName).lookup "paymentAmount"
      = some (.num paymentAmount) ∧
    (placeOrderDoc userId cart pickupTime paymentAmount customerName).lookup "createdAt"
      = some .serverTimestamp := by
  refine ⟨rfl, rfl, rfl, rfl, rfl, rfl, rfl, rfl⟩

/-! ### Empty-cart validation (`handleProceedToPayment`,
src/Customer.js 392-399)

The checkout component's state: the cart, the inline message, whether
the payment modal is open, and the documents created so far (a
`placeOrder` call appends to the latter; `handleProceedToPayment` makes
none). -/

/-- An inline message `{ type, text }`. -/
structure CheckoutMessage where
  isError : Bool
  text : String
deriving DecidableEq, Repr

/-- State of `CartAndCheckout` relevant to the checkout attempt. -/
structure CheckoutState where
  cart : List CartItem
  message : Option CheckoutMessage
  isPaymentOpen : Bool
  createdDocs : List (List (String × FieldVal))
deriving DecidableEq, Repr

/-- Shallow embedding of `handleProceedToPayment`: an empty cart only
sets the inline error and returns early; otherwise the message clears
and the payment modal opens.  No branch calls `placeOrder`, so
`createdDocs` is untouched. -/
def handleProceedToPayment (st : CheckoutState) : CheckoutState :=
  if st.cart.length = 0 then
    { st with message := some ⟨true, "Your cart is empty!"⟩ }
  else
    { st with message := none, isPaymentOpen := true }

/-- C8: a checkout attempt with an empty cart is rejected with an inline
error before any mutation: no document is created, the cart is
unchanged, and the payment modal does not open. -/
theorem empty_cart_checkout_rejected (st : CheckoutState) (h : st.cart = []) :
    (handleProceedToPayment st).createdDocs = st.createdDocs ∧
    (handleProceedToPayment st).cart = st.cart ∧
    (handleProceedToPayment st).isPaymentOpen = st.isPaymentOpen ∧
    (handleProceedToPayment st).message = some ⟨true, "Your cart is empty!"⟩ := by
  unfold handleProceedToPayment
  rw [if_pos (by rw [h]; rfl)]
  exact ⟨rfl, rfl, rfl, rfl⟩

/-- Witness for C8: a concrete empty-cart state is rejected and issues
no document creation. -/
theorem empty_cart_checkout_rejected_witness :
    (handleProceedToPayment ⟨[], none, false, []⟩).createdDocs = [] ∧
    (handleProceedToPayment ⟨[], none, false, []⟩).message
      = some ⟨true, "Your cart is empty!"⟩ := by
  have h := empty_cart_checkout_rejected ⟨[], none, false, []⟩ rfl
  exact ⟨h.1, h.2.2.2⟩

end JRDHOUSE
